import Mathlib

/-!
Verification of the LumaGradient rendering core.

The definitions below are a shallow embedding of the TypeScript sources:
the gradient data model (types.ts), the palette mutators of the controls
component (Controls.tsx), the anchor layout resolver, hit-testing and drag
handlers of the interactive preview component (GradientPreview), the
linear-gradient endpoint geometry and the mesh/gaussian compositing pass of
the render effect, and the CSS export branch of the download handler
(App.tsx).  JavaScript numbers are modelled as real numbers where the code
computes coordinates, as integers where the code only ever holds integral
values (stop positions, angles), and as rationals for the noise intensity.
Randomness (fresh ids, random anchor seeds) is modelled by explicit
parameters.  Definitions named after the specification text (resolveAnchor,
specSpatialPass, specToStyleString, linearEndpointsSpec) follow the wording
of the specification and are compared against the definitions taken from
the code.
-/

namespace LumaGradient

/-- The seven gradient algorithms of types.ts. -/
inductive GradientType where
  | linear
  | radial
  | conic
  | mesh
  | gaussian
  | bezier
  | noise
  deriving DecidableEq

/-- A color stop: id, hex color, 1-D timeline position, optional 2-D anchor. -/
structure ColorStop where
  id : String
  color : String
  position : ℤ
  x : Option ℝ := none
  y : Option ℝ := none

instance : Inhabited ColorStop := ⟨⟨"", "", 0, none, none⟩⟩

/-- The gradient configuration of types.ts. -/
structure GradientConfig where
  type : GradientType
  angle : ℤ
  stops : List ColorStop
  noise : ℚ

/-! ## Controls.tsx mutators -/

/-- handleNoiseChange: writes the parsed raw slider value into the config. -/
def handleNoiseChange (c : GradientConfig) (raw : ℚ) : GradientConfig :=
  { c with noise := raw }

/-- handlePositionChange: replaces the position of the stop with the given id
by the parsed raw slider value. -/
def handlePositionChange (c : GradientConfig) (sid : String) (newPos : ℤ) :
    GradientConfig :=
  { c with stops := c.stops.map fun s =>
      if s.id = sid then { s with position := newPos } else s }

/-- removeStop: rejected (none, no onChange emitted) when the config has two
or fewer stops; otherwise filters out the stop with the given id. -/
def removeStop (c : GradientConfig) (sid : String) : Option GradientConfig :=
  if c.stops.length ≤ 2 then none
  else some { c with stops := c.stops.filter fun s => s.id ≠ sid }

/-- addStop: appends a white stop at min(lastPos + 10, 100).  The fresh random
id and the two Math.random() draws used for the 2-D seed are parameters. -/
noncomputable def addStop (c : GradientConfig) (newId : String) (r1 r2 : ℝ) :
    GradientConfig :=
  let lastPos : ℤ := ((c.stops.getLast?).map ColorStop.position).getD 0
  let newPos : ℤ := min (lastPos + 10) 100
  { c with stops := c.stops ++
      [{ id := newId, color := "#ffffff", position := newPos,
         x := some (0.2 + r1 * 0.6), y := some (0.2 + r2 * 0.6) }] }

/-! ## Stop sorting (the `[...stops].sort((a, b) => a.position - b.position)`
idiom; Array.prototype.sort with this comparator is the stable ascending
sort by position, embedded here as stable insertion sort, which computes
the same list). -/

/-- Inserts a stop into a sorted list after every stop of strictly smaller
position and before the first stop of greater or equal position, so that
stops with equal positions keep their original relative order. -/
def insertByPosition (s : ColorStop) : List ColorStop → List ColorStop
  | [] => [s]
  | t :: rest =>
    if t.position < s.position then t :: insertByPosition s rest
    else s :: t :: rest

/-- Stable ascending sort of stops by position. -/
def sortStops : List ColorStop → List ColorStop
  | [] => []
  | s :: rest => insertByPosition s (sortStops rest)

/-! ## Anchor layout resolver (getStopCoords in GradientPreview) -/

/-- getStopCoords: explicit x/y win; otherwise a 2-column grid default for
mesh and a circle default for every other type (the code only reaches the
fallback for mesh/gaussian). -/
noncomputable def getStopCoords (ty : GradientType) (stop : ColorStop)
    (index total : ℕ) (width height : ℝ) : ℝ × ℝ :=
  match stop.x, stop.y with
  | some sx, some sy => (sx * width, sy * height)
  | _, _ =>
    if ty = GradientType.mesh then
      let row : ℕ := index / 2
      let col : ℕ := index % 2
      let x : ℝ := if 4 ≤ index then 0.5 * width
                   else (if col = 0 then (0.2 : ℝ) else 0.8) * width
      let y : ℝ := (0.2 + (row : ℝ) * 0.4) * height
      (x, y)
    else
      let angle : ℝ := ((index : ℝ) / (total : ℝ)) * Real.pi * 2
      let dist : ℝ := width * 0.2
      (width / 2 + Real.cos angle * dist, height / 2 + Real.sin angle * dist)

/-- resolveAnchor, the reference layout of the specification: explicit
coordinates always win; the mesh default is a 2-column grid with
`x = (col == 0 ? 0.2 : 0.8) * width` overridden to `0.5 * width` for
`index >= 4` and `y = (0.2 + row * 0.4) * height`; the gaussian default is
the point on the circle of radius `0.2 * width` around the canvas center at
angle `(index / total) * 2 * pi`.  The specification defines no default for
the other five types. -/
noncomputable def resolveAnchor (ty : GradientType) (stop : ColorStop)
    (index total : ℕ) (width height : ℝ) : ℝ × ℝ :=
  match stop.x, stop.y with
  | some sx, some sy => (sx * width, sy * height)
  | _, _ =>
    match ty with
    | GradientType.mesh =>
      let row : ℕ := index / 2
      let col : ℕ := index % 2
      ((if 4 ≤ index then 0.5 * width
        else (if col = 0 then (0.2 : ℝ) else 0.8) * width),
       (0.2 + (row : ℝ) * 0.4) * height)
    | GradientType.gaussian =>
      let angle : ℝ := ((index : ℝ) / (total : ℝ)) * (2 * Real.pi)
      (width / 2 + Real.cos angle * (0.2 * width),
       height / 2 + Real.sin angle * (0.2 * width))
    | _ => (0, 0)

/-! ## Interaction handlers (GradientPreview) -/

/-- Euclidean distance from the pointer to the resolved anchor of the indexed
stop e, as computed in the handlers:
`Math.sqrt(Math.pow(x - coords.x, 2) + Math.pow(y - coords.y, 2))`. -/
noncomputable def distToStop (ty : GradientType) (n : ℕ) (w h px py : ℝ)
    (e : ℕ × ColorStop) : ℝ :=
  Real.sqrt ((px - (getStopCoords ty e.2 e.1 n w h).1) ^ 2 +
             (py - (getStopCoords ty e.2 e.1 n w h).2) ^ 2)

/-- The shared search loop of handleMouseDown and the hover branch of
handleMouseMove: walk the (index, stop) pairs and return the first whose
anchor lies strictly within 30 pixels of the pointer. -/
noncomputable def findHit (ty : GradientType) (n : ℕ) (w h px py : ℝ) :
    List (ℕ × ColorStop) → Option (ℕ × ColorStop)
  | [] => none
  | e :: rest =>
    if distToStop ty n w h px py e < 30 then some e
    else findHit ty n w h px py rest

/-- Hit test against the stops in reverse draw order (`[...stops].reverse()`
with the original index recovered by indexOf). -/
noncomputable def hitTest (c : GradientConfig) (px py w h : ℝ) :
    Option (ℕ × ColorStop) :=
  findHit c.type c.stops.length w h px py c.stops.enum.reverse

/-- handleMouseDown: for spatial types only, the id of the hit stop becomes
the new draggingId (none when nothing is hit or the type is not spatial). -/
noncomputable def handleMouseDown (c : GradientConfig) (px py w h : ℝ) :
    Option String :=
  if c.type = GradientType.mesh ∨ c.type = GradientType.gaussian then
    (hitTest c px py w h).map fun e => e.2.id
  else none

/-- The hover branch of handleMouseMove: same loop, writes hoveredId. -/
noncomputable def hoverTarget (c : GradientConfig) (px py w h : ℝ) :
    Option String :=
  if c.type = GradientType.mesh ∨ c.type = GradientType.gaussian then
    (hitTest c px py w h).map fun e => e.2.id
  else none

/-- Math.max(0, Math.min(1, t)), the normalization clamp of the drag branch. -/
noncomputable def clamp01 (t : ℝ) : ℝ := max 0 (min 1 t)

/-- The drag branch of handleMouseMove: writes the clamped normalized pointer
position into the x/y of every stop whose id equals draggingId and emits the
updated configuration. -/
noncomputable def handleDragMove (c : GradientConfig) (draggingId : String)
    (px py w h : ℝ) : GradientConfig :=
  let nx := clamp01 (px / w)
  let ny := clamp01 (py / h)
  { c with stops := c.stops.map fun s =>
      if s.id = draggingId then { s with x := some nx, y := some ny } else s }

/-! ## Linear branch of the render effect -/

/-- The linear gradient geometry: `rad = (angle - 90) * pi / 180` and the
gradient runs from (x2, y2) to (x1, y1) with the cosine offset scaled by the
width and the sine offset scaled by the height. -/
noncomputable def linearEndpoints (angle : ℤ) (width height : ℝ) :
    (ℝ × ℝ) × (ℝ × ℝ) :=
  let rad : ℝ := ((angle : ℝ) - 90) * (Real.pi / 180)
  let x1 := width / 2 + Real.cos rad * width
  let y1 := height / 2 + Real.sin rad * height
  let x2 := width / 2 - Real.cos rad * width
  let y2 := height / 2 - Real.sin rad * height
  ((x2, y2), (x1, y1))

/-- The linear gradient geometry as the specification words it: both
endpoints are the canvas center plus and minus the unit vector
(cos rad, sin rad) scaled by the larger canvas dimension. -/
noncomputable def linearEndpointsSpec (angle : ℤ) (width height : ℝ) :
    (ℝ × ℝ) × (ℝ × ℝ) :=
  let rad : ℝ := ((angle : ℝ) - 90) * (Real.pi / 180)
  let m := max width height
  ((width / 2 - Real.cos rad * m, height / 2 - Real.sin rad * m),
   (width / 2 + Real.cos rad * m, height / 2 + Real.sin rad * m))

/-- The amended geometry: center plus and minus the componentwise offset
(cos rad * width, sin rad * height). -/
noncomputable def linearEndpointsAmended (angle : ℤ) (width height : ℝ) :
    (ℝ × ℝ) × (ℝ × ℝ) :=
  let rad : ℝ := ((angle : ℝ) - 90) * (Real.pi / 180)
  ((width / 2 - Real.cos rad * width, height / 2 - Real.sin rad * height),
   (width / 2 + Real.cos rad * width, height / 2 + Real.sin rad * height))

/-! ## Mesh/gaussian branch of the render effect, as a trace of canvas
drawing commands -/

/-- Canvas compositing modes used by the pass. -/
inductive CompositeOp where
  | sourceOver
  | screen
  deriving DecidableEq

/-- Per-channel blending semantics of the canvas compositing modes (channel
values in [0,1]): source-over replaces the backdrop with the source, screen
computes 1 - (1 - a)(1 - b). -/
def CompositeOp.blend : CompositeOp → ℝ → ℝ → ℝ
  | CompositeOp.sourceOver, a, _ => a
  | CompositeOp.screen, a, b => 1 - (1 - a) * (1 - b)

/-- One canvas drawing command of the mesh/gaussian pass. -/
inductive DrawCmd where
  | fillRect (color : String)
  | radialFalloff (cx cy radius : ℝ) (color : String) (op : CompositeOp)
  | setComposite (op : CompositeOp)

/-- The mesh/gaussian branch of the render effect: fill the background with
the first sorted stop color, then for each stop in original insertion order
draw a full-canvas radial gradient from the stop color at its resolved
anchor fading to transparent at radius `width * (mesh ? 0.8 : 0.6)`,
composited source-over for the first stop and screen for the rest, and
finally reset the compositing mode. -/
noncomputable def renderSpatial (c : GradientConfig) (w h : ℝ) :
    List DrawCmd :=
  let n := c.stops.length
  DrawCmd.fillRect (sortStops c.stops).headI.color
    :: (c.stops.enum.map fun e =>
        let coords := getStopCoords c.type e.2 e.1 n w h
        let radius := w * (if c.type = GradientType.mesh then (0.8 : ℝ) else 0.6)
        DrawCmd.radialFalloff coords.1 coords.2 radius e.2.color
          (if e.1 = 0 then CompositeOp.sourceOver else CompositeOp.screen))
    ++ [DrawCmd.setComposite CompositeOp.sourceOver]

/-- The same pass as the specification words it: background fill with the
first sorted stop color, then the radial falloffs in original insertion
order at the reference anchors with radius `width * 0.8` for mesh and
`width * 0.6` for gaussian, source-over for the first stop and screen for
every later one, and a final reset to normal compositing. -/
noncomputable def specSpatialPass (c : GradientConfig) (w h : ℝ) :
    List DrawCmd :=
  DrawCmd.fillRect (sortStops c.stops).headI.color
    :: (c.stops.enum.map fun e =>
        let coords := resolveAnchor c.type e.2 e.1 c.stops.length w h
        let radius := if c.type = GradientType.mesh then w * 0.8 else w * 0.6
        DrawCmd.radialFalloff coords.1 coords.2 radius e.2.color
          (if e.1 = 0 then CompositeOp.sourceOver else CompositeOp.screen))
    ++ [DrawCmd.setComposite CompositeOp.sourceOver]

/-! ## CSS export (the css branch of handleDownload in App.tsx) -/

/-- The stop segment string: sorted stops rendered as color-space-percent,
joined by a comma and a space. -/
def stopSegments (stops : List ColorStop) : String :=
  String.intercalate ", "
    ((sortStops stops).map fun s => s.color ++ " " ++ toString s.position ++ "%")

/-- The css branch of handleDownload: a full CSS declaration for linear,
radial and conic; none (the alert path, nothing copied) for the other four
types. -/
def handleDownloadCSS (c : GradientConfig) : Option String :=
  match c.type with
  | GradientType.linear =>
    some ("background: linear-gradient(" ++ toString c.angle ++ "deg, "
          ++ stopSegments c.stops ++ ");")
  | GradientType.radial =>
    some ("background: radial-gradient(circle, " ++ stopSegments c.stops ++ ");")
  | GradientType.conic =>
    some ("background: conic-gradient(from " ++ toString c.angle ++ "deg, "
          ++ stopSegments c.stops ++ ");")
  | _ => none

/-- toStyleString as the specification and the claim word it: exactly the
gradient value strings for linear, radial and conic, and an unsupported
signal (none) for mesh, gaussian, bezier and noise. -/
def specToStyleString (c : GradientConfig) : Option String :=
  match c.type with
  | GradientType.linear =>
    some ("linear-gradient(" ++ toString c.angle ++ "deg, "
          ++ stopSegments c.stops ++ ")")
  | GradientType.radial =>
    some ("radial-gradient(circle, " ++ stopSegments c.stops ++ ")")
  | GradientType.conic =>
    some ("conic-gradient(from " ++ toString c.angle ++ "deg, "
          ++ stopSegments c.stops ++ ")")
  | _ => none

/-! ## Stop add/remove operation sequences (for the stop-count invariant) -/

/-- One palette mutation: a remove click or an add click (the add carries the
generated random id and the two random anchor seeds). -/
inductive StopOp where
  | remove (sid : String)
  | add (sid : String) (r1 r2 : ℝ)

/-- Applying one operation: a rejected removal leaves the configuration
unchanged (no update is emitted). -/
noncomputable def applyOp (c : GradientConfig) : StopOp → GradientConfig
  | StopOp.remove sid => (removeStop c sid).getD c
  | StopOp.add sid r1 r2 => addStop c sid r1 r2

/-- Applying a sequence of palette mutations in order. -/
noncomputable def applyOps (c : GradientConfig) (ops : List StopOp) :
    GradientConfig :=
  ops.foldl applyOp c

/-- The ids of the stops of a configuration. -/
def stopIds (c : GradientConfig) : List String := c.stops.map fun s => s.id

/-- The id-uniqueness invariant of the data model. -/
def idsNodup (c : GradientConfig) : Prop := (stopIds c).Nodup

/-- An operation is id-fresh for a configuration when, if it is an add, the
generated id does not collide with an existing stop id. -/
def opFresh (c : GradientConfig) : StopOp → Prop
  | StopOp.remove _ => True
  | StopOp.add sid _ _ => sid ∉ stopIds c

/-- Every add in the sequence uses an id fresh for the configuration it is
applied to. -/
def freshAlong : GradientConfig → List StopOp → Prop
  | _, [] => True
  | c, op :: rest => opFresh c op ∧ freshAlong (applyOp c op) rest

/-! ## Concrete configurations used by the witnesses and counterexamples -/

/-- The initial configuration of App.tsx. -/
def demoConfig : GradientConfig :=
  { type := GradientType.linear, angle := 135,
    stops := [{ id := "1", color := "#111111", position := 0 },
              { id := "2", color := "#FF5A19", position := 100 }],
    noise := 0.1 }

/-- A two-stop configuration whose last stop sits at position 95. -/
def demo95Config : GradientConfig :=
  { type := GradientType.linear, angle := 0,
    stops := [{ id := "1", color := "#111111", position := 0 },
              { id := "2", color := "#FF5A19", position := 95 }],
    noise := 0 }

/-- A mesh configuration of the demo stops, for the render-pass witness. -/
def demoMeshConfig : GradientConfig :=
  { type := GradientType.mesh, angle := 0,
    stops := [{ id := "1", color := "#111111", position := 0 },
              { id := "2", color := "#FF5A19", position := 100 }],
    noise := 0 }

/-- A stop dragged to the canvas center. -/
noncomputable def demoHitStop : ColorStop :=
  { id := "1", color := "#111111", position := 0, x := some 0.5, y := some 0.5 }

/-- A one-stop mesh configuration with the anchor at the canvas center. -/
noncomputable def demoHitConfig : GradientConfig :=
  { type := GradientType.mesh, angle := 0, stops := [demoHitStop], noise := 0 }

/-- Two stops dragged to the same anchor point. -/
noncomputable def overlapStopA : ColorStop :=
  { id := "a", color := "#ff0000", position := 0, x := some 0.5, y := some 0.5 }

/-- The later-drawn of the two coincident stops. -/
noncomputable def overlapStopB : ColorStop :=
  { id := "b", color := "#00ff00", position := 100, x := some 0.5, y := some 0.5 }

/-- A mesh configuration with two coincident anchors. -/
noncomputable def overlapConfig : GradientConfig :=
  { type := GradientType.mesh, angle := 0,
    stops := [overlapStopA, overlapStopB], noise := 0 }

/-- A stop anchored at the canvas origin. -/
noncomputable def demoEdgeStop : ColorStop :=
  { id := "e", color := "#ffffff", position := 0, x := some 0, y := some 0 }

/-- A one-stop mesh configuration anchored at the origin, for the exact
30-pixel boundary witness. -/
noncomputable def demoEdgeConfig : GradientConfig :=
  { type := GradientType.mesh, angle := 0, stops := [demoEdgeStop], noise := 0 }

/-! ## Helper lemmas -/

/-- For the two spatial types the code layout agrees with the reference
layout of the specification. -/
lemma getStopCoords_eq_resolveAnchor (ty : GradientType) (stop : ColorStop)
    (index total : ℕ) (w h : ℝ)
    (hty : ty = GradientType.mesh ∨ ty = GradientType.gaussian) :
    getStopCoords ty stop index total w h
      = resolveAnchor ty stop index total w h := by
  have harg : ((index : ℝ) / (total : ℝ)) * Real.pi * 2
      = ((index : ℝ) / (total : ℝ)) * (2 * Real.pi) := by ring
  have hfac : w * (0.2 : ℝ) = 0.2 * w := by ring
  rcases hty with h1 | h1 <;> subst h1 <;>
    cases hx : stop.x <;> cases hy : stop.y <;>
      simp only [getStopCoords, resolveAnchor, hx, hy] <;>
      try rfl
  all_goals rw [if_neg (by decide : ¬ GradientType.gaussian = GradientType.mesh),
    harg, hfac]

/-! ## Claim theorems -/

/-- Claim C1: getStopCoords is a pure deterministic function of its
arguments and, for the spatial types, coincides with the reference
resolveAnchor of the specification; explicit x and y always override the
default, regardless of the index. -/
theorem getStopCoords_matches_reference_layout (ty : GradientType)
    (stop : ColorStop) (index total : ℕ) (w h : ℝ)
    (hty : ty = GradientType.mesh ∨ ty = GradientType.gaussian) :
    getStopCoords ty stop index total w h
      = resolveAnchor ty stop index total w h
    ∧ ∀ a b, stop.x = some a → stop.y = some b →
        ∀ j, getStopCoords ty stop j total w h = (a * w, b * h) := by
  refine ⟨getStopCoords_eq_resolveAnchor ty stop index total w h hty, ?_⟩
  intro a b ha hb j
  simp [getStopCoords, ha, hb]

/-- Witness for claim C1: the hypothesis holds for the mesh type and the
layouts agree on a concrete input. -/
theorem getStopCoords_matches_reference_layout_witness :
    (GradientType.mesh = GradientType.mesh
      ∨ GradientType.mesh = GradientType.gaussian)
    ∧ getStopCoords GradientType.mesh default 0 2 100 50
        = resolveAnchor GradientType.mesh default 0 2 100 50 :=
  ⟨Or.inl rfl,
   (getStopCoords_matches_reference_layout GradientType.mesh default 0 2 100 50
      (Or.inl rfl)).1⟩

/-- Counterexample to claim C5: at angle 90 on a 50 by 100 canvas the code
endpoints are not the center plus and minus the unit vector scaled by the
larger canvas dimension; the code scales the cosine offset by the width and
the sine offset by the height. -/
theorem linearEndpoints_not_max_scaled :
    linearEndpoints 90 50 100 ≠ linearEndpointsSpec 90 50 100 := by
  intro hEq
  have h1 := congrArg (fun p => p.2.1) hEq
  simp only [linearEndpoints, linearEndpointsSpec] at h1
  norm_num at h1

/-- Claim C5 amended: the linear rasterizer computes
`rad = (angle - 90) * pi / 180` and places the gradient endpoints at the
canvas center minus and plus the componentwise offset
(cos rad times width, sin rad times height) — each axis is scaled by the
canvas dimension of that axis, not by the larger dimension. -/
theorem linearEndpoints_axis_scaled_per_dimension (angle : ℤ) (w h : ℝ) :
    linearEndpoints angle w h = linearEndpointsAmended angle w h := rfl

/-- Counterexample to claim C4: the mutators do not clamp; a raw position of
150 is written as 150 (outside [0,100]) and a raw noise of 3/2 is written as
3/2 (outside [0,1]). -/
theorem mutators_do_not_clamp_counterexample :
    ((handlePositionChange demoConfig "1" 150).stops.map fun s => s.position)
        = [150, 100]
    ∧ ¬ ((150 : ℤ) ≤ 100)
    ∧ (handleNoiseChange demoConfig (3 / 2)).noise = 3 / 2
    ∧ ¬ ((3 / 2 : ℚ) ≤ 1) := by
  refine ⟨rfl, by decide, rfl, by norm_num⟩

/-- Claim C4 amended: the position and noise mutators write the raw value
unchanged, with no clamping; the resulting configuration stays within the
stated ranges exactly when the raw input (and the untouched stops) are
within range — in the application the range inputs themselves bound the raw
values. -/
theorem mutators_in_range_of_raw_in_range (c : GradientConfig) (sid : String)
    (p : ℤ) (r : ℚ) (hp : 0 ≤ p ∧ p ≤ 100)
    (hstops : ∀ s ∈ c.stops, 0 ≤ s.position ∧ s.position ≤ 100)
    (hr : 0 ≤ r ∧ r ≤ 1) :
    (∀ s ∈ (handlePositionChange c sid p).stops,
        0 ≤ s.position ∧ s.position ≤ 100)
    ∧ ((handlePositionChange c sid p).stops.map fun s => s.position)
        = (c.stops.map fun s => if s.id = sid then p else s.position)
    ∧ (handleNoiseChange c r).noise = r
    ∧ 0 ≤ (handleNoiseChange c r).noise ∧ (handleNoiseChange c r).noise ≤ 1 := by
  refine ⟨?_, ?_, rfl, hr.1, hr.2⟩
  · intro s hs
    simp only [handlePositionChange, List.mem_map] at hs
    obtain ⟨t, ht, hsdef⟩ := hs
    by_cases hid : t.id = sid
    · rw [if_pos hid] at hsdef
      subst hsdef
      exact hp
    · rw [if_neg hid] at hsdef
      subst hsdef
      exact hstops t ht
  · simp only [handlePositionChange, List.map_map]
    apply List.map_congr_left
    intro s _
    by_cases hid : s.id = sid
    · simp [hid]
    · simp [hid]

/-- Witness for the amended claim C4: in-range raw input on the demo
configuration yields in-range values. -/
theorem mutators_in_range_of_raw_in_range_witness :
    ((0 : ℤ) ≤ 50 ∧ (50 : ℤ) ≤ 100)
    ∧ (∀ s ∈ demoConfig.stops, 0 ≤ s.position ∧ s.position ≤ 100)
    ∧ ((0 : ℚ) ≤ 1 / 2 ∧ (1 / 2 : ℚ) ≤ 1)
    ∧ ∀ s ∈ (handlePositionChange demoConfig "1" 50).stops,
        0 ≤ s.position ∧ s.position ≤ 100 :=
  ⟨by decide, by decide, by norm_num,
   (mutators_in_range_of_raw_in_range demoConfig "1" 50 (1 / 2)
      (by decide) (by decide) (by norm_num)).1⟩

/-- Counterexample to claim C7: on the initial configuration the export is
the full CSS declaration with a background prefix and trailing semicolon,
not exactly the gradient value string the claim states. -/
theorem css_export_has_background_wrapper :
    handleDownloadCSS demoConfig
        = some "background: linear-gradient(135deg, #111111 0%, #FF5A19 100%);"
    ∧ handleDownloadCSS demoConfig
        ≠ some "linear-gradient(135deg, #111111 0%, #FF5A19 100%)" := by
  exact ⟨rfl, by decide⟩

/-- Claim C7 amended: for linear, radial and conic the export produces
exactly the declaration `background: v;` where v is the gradient value
string of the claim (with segments of the stops sorted ascending by
position, joined by a comma and a space), and for mesh, gaussian, bezier
and noise it produces no style string (the non-exceptional unsupported
signal, modelled as none). -/
theorem css_export_matches_style_string (c : GradientConfig) :
    handleDownloadCSS c
      = (specToStyleString c).map fun v => "background: " ++ v ++ ";" := by
  rcases c with ⟨ty, angle, stops, noise⟩
  cases ty <;> simp only [handleDownloadCSS, specToStyleString, Option.map] <;>
    try rfl
  all_goals
    refine congrArg some ?_
    apply String.ext
    simp [String.data_append, List.append_assoc]

/-- Claim C8: addStop appends a stop at min(lastPos + 10, 100); the new
position never exceeds 100 and a last position of 95 yields exactly 100. -/
theorem addStop_position_clamped (c : GradientConfig) (newId : String)
    (r1 r2 : ℝ) (s : ColorStop) (hlast : c.stops.getLast? = some s) :
    (addStop c newId r1 r2).stops
      = c.stops ++ [{ id := newId, color := "#ffffff",
                      position := min (s.position + 10) 100,
                      x := some (0.2 + r1 * 0.6), y := some (0.2 + r2 * 0.6) }]
    ∧ min (s.position + 10) 100 ≤ 100
    ∧ (s.position = 95 → min (s.position + 10) 100 = 100) := by
  refine ⟨?_, min_le_right _ _, ?_⟩
  · simp [addStop, hlast]
  · intro h95
    rw [h95]
    norm_num

/-- Witness for claim C8: the demo configuration with last position 95 gets
a new stop at exactly position 100. -/
theorem addStop_position_clamped_witness :
    demo95Config.stops.getLast?
        = some { id := "2", color := "#FF5A19", position := 95 }
    ∧ min ((95 : ℤ) + 10) 100 = 100 :=
  ⟨rfl,
   by
    have h := (addStop_position_clamped demo95Config "3" 0 0
      { id := "2", color := "#FF5A19", position := 95 } rfl).2.2 rfl
    exact h⟩

/-- Claim C9: during a drag every pointer move changes only the x and y of
the dragged stop, which are set to the pointer position normalized by the
canvas size and clamped to [0,1]; the type, angle, noise, every other stop
and the remaining fields of the dragged stop are unchanged. -/
theorem handleDragMove_frame (c : GradientConfig) (did : String)
    (px py w h : ℝ) :
    (handleDragMove c did px py w h).type = c.type
    ∧ (handleDragMove c did px py w h).angle = c.angle
    ∧ (handleDragMove c did px py w h).noise = c.noise
    ∧ (handleDragMove c did px py w h).stops.length = c.stops.length
    ∧ (∀ (i : ℕ) (s : ColorStop), c.stops[i]? = some s → s.id ≠ did →
        (handleDragMove c did px py w h).stops[i]? = some s)
    ∧ (∀ (i : ℕ) (s : ColorStop), c.stops[i]? = some s → s.id = did →
        (handleDragMove c did px py w h).stops[i]?
          = some { s with x := some (clamp01 (px / w)),
                          y := some (clamp01 (py / h)) })
    ∧ 0 ≤ clamp01 (px / w) ∧ clamp01 (px / w) ≤ 1
    ∧ 0 ≤ clamp01 (py / h) ∧ clamp01 (py / h) ≤ 1 := by
  have hle : ∀ t : ℝ, clamp01 t ≤ 1 := fun t =>
    max_le (by norm_num) (min_le_left _ _)
  refine ⟨rfl, rfl, rfl, by simp [handleDragMove], ?_, ?_,
    le_max_left _ _, hle _, le_max_left _ _, hle _⟩
  · intro i s hget hid
    simp [handleDragMove, List.getElem?_map, hget, hid]
  · intro i s hget hid
    simp [handleDragMove, List.getElem?_map, hget, hid]

/-- Witness for claim C9: dragging stop 1 of the demo configuration to the
canvas center writes the clamped normalized coordinates into that stop. -/
theorem handleDragMove_frame_witness :
    demoConfig.stops[0]? = some { id := "1", color := "#111111", position := 0 }
    ∧ (handleDragMove demoConfig "1" 50 50 100 100).stops[0]?
        = some { id := "1", color := "#111111", position := 0,
                 x := some (clamp01 ((50 : ℝ) / 100)),
                 y := some (clamp01 ((50 : ℝ) / 100)) } :=
  ⟨rfl,
   (handleDragMove_frame demoConfig "1" 50 50 100 100).2.2.2.2.2.1 0
      { id := "1", color := "#111111", position := 0 } rfl rfl⟩

/-- When the stop ids are duplicate-free, filtering one id away removes at
most one stop. -/
lemma length_filter_ne_id (l : List ColorStop) (rid : String)
    (hn : (l.map fun s => s.id).Nodup) :
    l.length - 1 ≤ (l.filter fun s => s.id ≠ rid).length := by
  induction l with
  | nil => simp
  | cons a rest ih =>
    simp only [List.map_cons, List.nodup_cons] at hn
    obtain ⟨hna, hnr⟩ := hn
    by_cases hid : a.id = rid
    · have hmem : ∀ s ∈ rest, s.id ≠ rid := by
        intro s hs heq
        apply hna
        have : s.id ∈ rest.map fun s => s.id := List.mem_map_of_mem _ hs
        rw [heq, ← hid] at this
        exact this
      have hall : (rest.filter fun s => !decide (s.id = rid)) = rest := by
        rw [List.filter_eq_self]
        intro s hs
        simp [hmem s hs]
      simp [List.filter_cons, hid, hall]
    · have h := ih hnr
      simp only [List.filter_cons]
      have : (decide (a.id ≠ rid)) = true := by simp [hid]
      rw [this]
      simp only [if_true, List.length_cons]
      omega

/-- Applying one palette mutation preserves the two-stop minimum and the id
uniqueness invariant (the add id must be fresh). -/
lemma applyOp_preserves (c : GradientConfig) (op : StopOp)
    (h2 : 2 ≤ c.stops.length) (hn : idsNodup c) (hf : opFresh c op) :
    2 ≤ (applyOp c op).stops.length ∧ idsNodup (applyOp c op) := by
  cases op with
  | remove sid =>
    simp only [applyOp, removeStop]
    by_cases hle : c.stops.length ≤ 2
    · simp only [if_pos hle, Option.getD_none]
      exact ⟨h2, hn⟩
    · simp only [if_neg hle, Option.getD_some]
      constructor
      · have := length_filter_ne_id c.stops sid hn
        omega
      · unfold idsNodup stopIds at hn ⊢
        exact hn.sublist ((List.filter_sublist _).map _)
  | add sid r1 r2 =>
    simp only [applyOp, addStop]
    constructor
    · simp only [List.length_append, List.length_cons, List.length_nil]
      omega
    · unfold idsNodup stopIds at hn ⊢
      unfold opFresh stopIds at hf
      simp only [List.map_append, List.map_cons, List.map_nil]
      rw [List.nodup_append]
      refine ⟨hn, List.nodup_singleton _, ?_⟩
      intro a ha hb
      simp only [List.mem_singleton] at hb
      subst hb
      exact hf ha

/-- Applying any id-fresh sequence of palette mutations preserves the
invariants. -/
lemma applyOps_preserves (ops : List StopOp) : ∀ c : GradientConfig,
    2 ≤ c.stops.length → idsNodup c → freshAlong c ops →
    2 ≤ (applyOps c ops).stops.length ∧ idsNodup (applyOps c ops) := by
  induction ops with
  | nil => exact fun c h2 hn _ => ⟨h2, hn⟩
  | cons op rest ih =>
    intro c h2 hn hf
    obtain ⟨hf1, hf2⟩ := hf
    obtain ⟨h2p, hnp⟩ := applyOp_preserves c op h2 hn hf1
    have := ih (applyOp c op) h2p hnp hf2
    simpa [applyOps, List.foldl_cons] using this

/-- Claim C3: with unique stop ids, every sequence of add and remove clicks
preserves the two-stop minimum; a removal from a configuration of two or
fewer stops is rejected with no emitted update, and an add never decreases
the stop count. -/
theorem stops_length_invariant (c : GradientConfig) (ops : List StopOp)
    (h2 : 2 ≤ c.stops.length) (hn : idsNodup c) (hf : freshAlong c ops) :
    2 ≤ (applyOps c ops).stops.length
    ∧ (∀ (cfg : GradientConfig) (sid : String), cfg.stops.length ≤ 2 →
        removeStop cfg sid = none)
    ∧ ∀ (cfg : GradientConfig) (sid : String) (r1 r2 : ℝ),
        cfg.stops.length ≤ (addStop cfg sid r1 r2).stops.length := by
  refine ⟨(applyOps_preserves ops c h2 hn hf).1, ?_, ?_⟩
  · intro cfg sid hle
    simp [removeStop, hle]
  · intro cfg sid r1 r2
    simp [addStop]

/-- Witness for claim C3: a remove click on the two-stop demo configuration
followed by a fresh add keeps at least two stops. -/
theorem stops_length_invariant_witness :
    2 ≤ demoConfig.stops.length
    ∧ idsNodup demoConfig
    ∧ freshAlong demoConfig [StopOp.remove "1", StopOp.add "3" 0 0]
    ∧ 2 ≤ (applyOps demoConfig [StopOp.remove "1", StopOp.add "3" 0 0]).stops.length := by
  have h2 : 2 ≤ demoConfig.stops.length := by decide
  have hn : idsNodup demoConfig := by
    simp only [idsNodup]
    decide
  have hf : freshAlong demoConfig [StopOp.remove "1", StopOp.add "3" 0 0] := by
    refine ⟨trivial, ?_, trivial⟩
    show "3" ∉ stopIds (applyOp demoConfig (StopOp.remove "1"))
    decide
  exact ⟨h2, hn, hf,
    (stops_length_invariant demoConfig [StopOp.remove "1", StopOp.add "3" 0 0]
      h2 hn hf).1⟩

/-- Claim C6: for mesh and gaussian the render pass equals the pass the
specification describes — background fill with the first sorted stop color,
then one full-canvas radial falloff per stop in original insertion order
with radius width times 0.8 (mesh) or 0.6 (gaussian), source-over for the
first stop and screen (per channel 1 - (1 - a)(1 - b)) for every later one,
and a final reset to normal compositing. -/
theorem renderSpatial_matches_spec (c : GradientConfig) (w h : ℝ)
    (hty : c.type = GradientType.mesh ∨ c.type = GradientType.gaussian) :
    renderSpatial c w h = specSpatialPass c w h
    ∧ (∀ (s0 : ColorStop) (rest : List ColorStop),
        sortStops c.stops = s0 :: rest →
        (renderSpatial c w h).head? = some (DrawCmd.fillRect s0.color))
    ∧ ∀ a b : ℝ,
        CompositeOp.blend CompositeOp.screen a b = 1 - (1 - a) * (1 - b) := by
  refine ⟨?_, ?_, fun a b => rfl⟩
  · simp only [renderSpatial, specSpatialPass]
    congr 1
    congr 1
    apply List.map_congr_left
    intro e _
    rw [getStopCoords_eq_resolveAnchor _ _ _ _ _ _ hty]
    rcases hty with h1 | h1 <;> rw [h1] <;> norm_num
  · intro s0 rest hsort
    simp [renderSpatial, hsort]

/-- Witness for claim C6: the mesh demo configuration renders with the
first sorted stop color as background. -/
theorem renderSpatial_matches_spec_witness :
    (demoMeshConfig.type = GradientType.mesh
      ∨ demoMeshConfig.type = GradientType.gaussian)
    ∧ sortStops demoMeshConfig.stops
        = { id := "1", color := "#111111", position := 0 }
          :: [{ id := "2", color := "#FF5A19", position := 100 }]
    ∧ (renderSpatial demoMeshConfig 100 100).head?
        = some (DrawCmd.fillRect "#111111") :=
  ⟨Or.inl rfl, rfl,
   (renderSpatial_matches_spec demoMeshConfig 100 100 (Or.inl rfl)).2.1
      { id := "1", color := "#111111", position := 0 }
      [{ id := "2", color := "#FF5A19", position := 100 }] rfl⟩

/-! ## Hit-test search characterization -/

/-- The search returns none exactly when no entry is strictly within the
30-pixel radius. -/
lemma findHit_eq_none_iff (ty : GradientType) (n : ℕ) (w h px py : ℝ)
    (l : List (ℕ × ColorStop)) :
    findHit ty n w h px py l = none
      ↔ ∀ e ∈ l, ¬ distToStop ty n w h px py e < 30 := by
  induction l with
  | nil => simp [findHit]
  | cons e rest ih =>
    by_cases hd : distToStop ty n w h px py e < 30
    · simp [findHit, hd]
    · simp only [findHit, if_neg hd]
      rw [ih]
      constructor
      · intro hall e₁ he₁
        rcases List.mem_cons.1 he₁ with rfl | hm
        · exact hd
        · exact hall e₁ hm
      · intro hall e₁ he₁
        exact hall e₁ (List.mem_cons_of_mem _ he₁)

/-- The search returns an entry exactly when it is the first entry of the
list strictly within the 30-pixel radius. -/
lemma findHit_eq_some_iff (ty : GradientType) (n : ℕ) (w h px py : ℝ)
    (l : List (ℕ × ColorStop)) (e : ℕ × ColorStop) :
    findHit ty n w h px py l = some e
      ↔ ∃ l₁ l₂, l = l₁ ++ e :: l₂
          ∧ (∀ e₁ ∈ l₁, ¬ distToStop ty n w h px py e₁ < 30)
          ∧ distToStop ty n w h px py e < 30 := by
  induction l with
  | nil =>
    simp only [findHit]
    constructor
    · intro hcontra
      cases hcontra
    · rintro ⟨l₁, l₂, hsplit, -, -⟩
      exact absurd hsplit.symm (by simp)
  | cons a rest ih =>
    by_cases hd : distToStop ty n w h px py a < 30
    · simp only [findHit, if_pos hd]
      constructor
      · intro hsome
        injection hsome with hae
        subst hae
        exact ⟨[], rest, rfl, by simp, hd⟩
      · rintro ⟨l₁, l₂, hsplit, hmiss, hhit⟩
        cases l₁ with
        | nil =>
          simp only [List.nil_append] at hsplit
          injection hsplit with h1 h2
          rw [h1]
        | cons b l₁ =>
          have hb : a = b := by
            simpa using congrArg List.head? hsplit
          exact absurd (hb ▸ hd) (hmiss b (List.mem_cons_self b l₁))
    · simp only [findHit, if_neg hd]
      rw [ih]
      constructor
      · rintro ⟨l₁, l₂, hsplit, hmiss, hhit⟩
        refine ⟨a :: l₁, l₂, by rw [hsplit]; rfl, ?_, hhit⟩
        intro e₁ he₁
        rcases List.mem_cons.1 he₁ with rfl | hm
        · exact hd
        · exact hmiss e₁ hm
      · rintro ⟨l₁, l₂, hsplit, hmiss, hhit⟩
        cases l₁ with
        | nil =>
          simp only [List.nil_append] at hsplit
          injection hsplit with h1 h2
          exact absurd (h1 ▸ hhit) hd
        | cons b l₁ =>
          have hb : a = b ∧ rest = l₁ ++ e :: l₂ := by
            constructor
            · simpa using congrArg List.head? hsplit
            · simpa using congrArg List.tail hsplit
          exact ⟨l₁, l₂, hb.2,
            fun e₁ he₁ => hmiss e₁ (List.mem_cons_of_mem b he₁), hhit⟩

/-- If some entry of the list is strictly within the radius the search
finds a hit. -/
lemma findHit_isSome_of_hit (ty : GradientType) (n : ℕ) (w h px py : ℝ)
    (l : List (ℕ × ColorStop)) (e : ℕ × ColorStop) (he : e ∈ l)
    (hd : distToStop ty n w h px py e < 30) :
    (findHit ty n w h px py l).isSome := by
  induction l with
  | nil => cases he
  | cons a rest ih =>
    by_cases hda : distToStop ty n w h px py a < 30
    · simp [findHit, hda]
    · rcases List.mem_cons.1 he with rfl | hm
      · exact absurd hd hda
      · simp only [findHit, if_neg hda]
        exact ih hm

/-- The reversed enumeration carries strictly decreasing indices. -/
lemma pairwise_enum_reverse (stops : List ColorStop) :
    (stops.enum.reverse).Pairwise fun a b => b.1 < a.1 := by
  rw [List.pairwise_reverse]
  have h := List.pairwise_lt_range stops.length
  rw [← List.enum_map_fst, List.pairwise_map] at h
  exact h

/-- Counterexample to claim C2: with two stops dragged to the same anchor,
a pointer-down exactly at the resolved coordinate of the first stop is
attributed to the later-drawn stop (topmost in reverse draw order), not to
the stop whose anchor the pointer is on. -/
theorem hit_attribution_counterexample :
    (50 : ℝ) = (getStopCoords overlapConfig.type overlapStopA 0
        overlapConfig.stops.length 100 100).1
    ∧ (50 : ℝ) = (getStopCoords overlapConfig.type overlapStopA 0
        overlapConfig.stops.length 100 100).2
    ∧ hitTest overlapConfig 50 50 100 100 = some (1, overlapStopB)
    ∧ hitTest overlapConfig 50 50 100 100 ≠ some (0, overlapStopA)
    ∧ overlapStopB.id ≠ overlapStopA.id := by
  have hcoordA : getStopCoords overlapConfig.type overlapStopA 0
      overlapConfig.stops.length 100 100 = (50, 50) := by
    simp only [overlapConfig, overlapStopA, getStopCoords]
    norm_num
  have hd : distToStop overlapConfig.type overlapConfig.stops.length 100 100
      50 50 (1, overlapStopB) < 30 := by
    simp only [distToStop, overlapConfig, overlapStopB, getStopCoords]
    norm_num [Real.sqrt_zero]
  have henum : overlapConfig.stops.enum.reverse
      = [(1, overlapStopB), (0, overlapStopA)] := rfl
  have hEval : hitTest overlapConfig 50 50 100 100 = some (1, overlapStopB) := by
    simp only [hitTest, henum, findHit, if_pos hd]
  refine ⟨by rw [hcoordA], by rw [hcoordA], hEval, ?_, by decide⟩
  intro habs
  rw [hEval] at habs
  simp [overlapStopA, overlapStopB] at habs

/-- Claim C2 amended: for spatial configurations, a pointer-down exactly at
the resolved coordinate of some stop always registers a hit; any hit is a
stop of the configuration whose anchor lies strictly within 30 pixels and
is the topmost-drawn (largest index) such stop; a pointer farther than 30
pixels from every anchor never registers a hit; the pointer-down handler
and the hover handler both report the id of the stop found by the same
reverse-order test. -/
theorem hitTest_reverse_order_spec (c : GradientConfig) (px py w h : ℝ)
    (hty : c.type = GradientType.mesh ∨ c.type = GradientType.gaussian) :
    (∀ (i : ℕ) (s : ColorStop), c.stops[i]? = some s →
        px = (getStopCoords c.type s i c.stops.length w h).1 →
        py = (getStopCoords c.type s i c.stops.length w h).2 →
        (hitTest c px py w h).isSome)
    ∧ (∀ (j : ℕ) (s : ColorStop), hitTest c px py w h = some (j, s) →
        c.stops[j]? = some s
        ∧ distToStop c.type c.stops.length w h px py (j, s) < 30
        ∧ ∀ (k : ℕ) (t : ColorStop), c.stops[k]? = some t →
            distToStop c.type c.stops.length w h px py (k, t) < 30 → k ≤ j)
    ∧ ((∀ (k : ℕ) (t : ColorStop), c.stops[k]? = some t →
          30 < distToStop c.type c.stops.length w h px py (k, t)) →
        hitTest c px py w h = none)
    ∧ handleMouseDown c px py w h = (hitTest c px py w h).map (fun e => e.2.id)
    ∧ hoverTarget c px py w h = (hitTest c px py w h).map fun e => e.2.id := by
  refine ⟨?_, ?_, ?_, ?_, ?_⟩
  · intro i s hget hpx hpy
    have hmem : (i, s) ∈ c.stops.enum.reverse := by
      rw [List.mem_reverse, List.mk_mem_enum_iff_getElem?]
      exact hget
    have hd : distToStop c.type c.stops.length w h px py (i, s) < 30 := by
      simp only [distToStop]
      rw [← hpx, ← hpy]
      simp [Real.sqrt_zero]
    exact findHit_isSome_of_hit _ _ _ _ _ _ _ (i, s) hmem hd
  · intro j s hsome
    simp only [hitTest] at hsome
    obtain ⟨l₁, l₂, hsplit, hmiss, hhit⟩ :=
      (findHit_eq_some_iff _ _ _ _ _ _ _ _).1 hsome
    have hmem : (j, s) ∈ c.stops.enum.reverse := by
      rw [hsplit]
      exact List.mem_append_right _ (List.mem_cons_self _ _)
    have hget : c.stops[j]? = some s := by
      rwa [List.mem_reverse, List.mk_mem_enum_iff_getElem?] at hmem
    refine ⟨hget, hhit, ?_⟩
    intro k t hgetk hdk
    have hmemk : (k, t) ∈ c.stops.enum.reverse := by
      rw [List.mem_reverse, List.mk_mem_enum_iff_getElem?]
      exact hgetk
    rw [hsplit] at hmemk
    rcases List.mem_append.1 hmemk with hin1 | hin2
    · exact absurd hdk (hmiss _ hin1)
    · rcases List.mem_cons.1 hin2 with heq | hin3
      · have : k = j := congrArg Prod.fst heq
        omega
      · have hp := pairwise_enum_reverse c.stops
        rw [hsplit] at hp
        have hp2 : ((j, s) :: l₂).Pairwise (fun a b => b.1 < a.1) :=
          hp.sublist (List.sublist_append_right l₁ _)
        have hlt := (List.pairwise_cons.1 hp2).1 (k, t) hin3
        omega
  · intro hfar
    simp only [hitTest]
    rw [findHit_eq_none_iff]
    intro e he
    obtain ⟨k, t⟩ := e
    have hget : c.stops[k]? = some t := by
      rwa [List.mem_reverse, List.mk_mem_enum_iff_getElem?] at he
    exact not_lt.2 (le_of_lt (hfar k t hget))
  · simp only [handleMouseDown, if_pos hty]
  · simp only [hoverTarget, if_pos hty]

/-- Witness for the amended claim C2: a pointer-down at the center anchor of
the one-stop mesh configuration registers a hit. -/
theorem hitTest_reverse_order_spec_witness :
    (demoHitConfig.type = GradientType.mesh
      ∨ demoHitConfig.type = GradientType.gaussian)
    ∧ demoHitConfig.stops[0]? = some demoHitStop
    ∧ (50 : ℝ) = (getStopCoords demoHitConfig.type demoHitStop 0
        demoHitConfig.stops.length 100 100).1
    ∧ (50 : ℝ) = (getStopCoords demoHitConfig.type demoHitStop 0
        demoHitConfig.stops.length 100 100).2
    ∧ (hitTest demoHitConfig 50 50 100 100).isSome := by
  have hty : demoHitConfig.type = GradientType.mesh
      ∨ demoHitConfig.type = GradientType.gaussian := Or.inl rfl
  have hget : demoHitConfig.stops[0]? = some demoHitStop := rfl
  have hcoord : getStopCoords demoHitConfig.type demoHitStop 0
      demoHitConfig.stops.length 100 100 = (50, 50) := by
    simp only [demoHitConfig, demoHitStop, getStopCoords]
    norm_num
  refine ⟨hty, hget, by rw [hcoord], by rw [hcoord], ?_⟩
  exact (hitTest_reverse_order_spec demoHitConfig 50 50 100 100 hty).1
    0 demoHitStop hget (by rw [hcoord]) (by rw [hcoord])

/-- Claim C10: the radius comparison is strict; an anchor at distance
exactly 30 pixels from the pointer is never the hit, and every hit lies
strictly within 30 pixels (hitTest is the shared loop of the pointer-down
and hover handlers). -/
theorem hit_radius_strict (c : GradientConfig) (px py w h : ℝ) (i : ℕ)
    (s : ColorStop) (_hget : c.stops[i]? = some s)
    (hd : distToStop c.type c.stops.length w h px py (i, s) = 30) :
    hitTest c px py w h ≠ some (i, s)
    ∧ ∀ e, hitTest c px py w h = some e →
        distToStop c.type c.stops.length w h px py e < 30 := by
  constructor
  · intro habs
    simp only [hitTest] at habs
    obtain ⟨-, -, -, -, hhit⟩ := (findHit_eq_some_iff _ _ _ _ _ _ _ _).1 habs
    rw [hd] at hhit
    exact lt_irrefl _ hhit
  · intro e he
    simp only [hitTest] at he
    obtain ⟨-, -, -, -, hhit⟩ := (findHit_eq_some_iff _ _ _ _ _ _ _ _).1 he
    exact hhit

/-- Witness for claim C10: a pointer at exactly 30 pixels from the origin
anchor of the one-stop configuration is not a hit on it. -/
theorem hit_radius_strict_witness :
    demoEdgeConfig.stops[0]? = some demoEdgeStop
    ∧ distToStop demoEdgeConfig.type demoEdgeConfig.stops.length 100 100 30 0
        (0, demoEdgeStop) = 30
    ∧ hitTest demoEdgeConfig 30 0 100 100 ≠ some (0, demoEdgeStop) := by
  have hget : demoEdgeConfig.stops[0]? = some demoEdgeStop := rfl
  have hd : distToStop demoEdgeConfig.type demoEdgeConfig.stops.length 100 100
      30 0 (0, demoEdgeStop) = 30 := by
    simp only [distToStop, demoEdgeConfig, demoEdgeStop, getStopCoords]
    norm_num
    rw [show (900 : ℝ) = 30 ^ 2 by norm_num]
    exact Real.sqrt_sq (by norm_num)
  exact ⟨hget, hd,
    (hit_radius_strict demoEdgeConfig 30 0 100 100 0 demoEdgeStop hget hd).1⟩

end LumaGradient
